import Mathlib

/-!
# VR-Backend: room registry, tick loop, and person state model

Shallow embedding of the core of the `VR-Backend` server:

* `src/room.ts` — the `Room` class: per-room occupant map, gravity constant,
  tick counter, and the physics `tick`.
* `src/index.ts` — the room registry (`rooms` map with `addToRoom`,
  `removeFromRoom`, `removeRoom`, room creation on first join) and the
  per-connection event handlers mutating a `Person`.

JavaScript numbers are modelled by an arbitrary linear ordered field `α`
(instantiated with `ℚ` for concrete evaluation and with `ℝ` for the handlers
that use `Math.cos` / `Math.sin` / `Math.PI`).  JS `Map` objects are modelled
by association lists in insertion order, with `Map.prototype` semantics for
`get` / `set` / `delete` / `has` / `size`.  In-place mutation of `Person` and
`Room` objects is modelled by explicit state passing; a handler that throws is
modelled with `Option` / `Except`.
-/

/-- Interface `VRChats.VRVector3D` (src/index.d.ts): three numeric components. -/
structure Vec3 (α : Type) where
  x : α
  y : α
  z : α
deriving DecidableEq, Repr

/-- Interface `VRChats.Person` (src/index.d.ts): position, velocity, orientation,
username, flight flag and cosmetic appearance of one occupant. -/
structure Person (α : Type) where
  position : Vec3 α
  velocity : Vec3 α
  yaw : α
  pitch : α
  username : String
  flying : Bool
  color : String
  shape : String
deriving DecidableEq, Repr

/-- Constant `TICK_LENGTH = 1 / 60` (src/room.ts). -/
def TICK_LENGTH (α : Type) [DivisionRing α] : α := 1 / 60

/-- Constant `FLOOR_Y = 0` (src/room.ts): the y-value no person should ever go under. -/
def FLOOR_Y (α : Type) [Zero α] : α := 0

section JsMap

variable {ρ : Type}

/-- Method `Map.prototype.has`: is `k` a key of the map?  JS `Map` keys are unique,
so entries are searched in insertion order. -/
def mapHas : List (String × ρ) → String → Bool
  | [], _ => false
  | kp :: t, k => kp.1 == k || mapHas t k

/-- Method `Map.prototype.get`: the value stored under `k` (`undefined` ↦ `none`). -/
def mapGet : List (String × ρ) → String → Option ρ
  | [], _ => none
  | kp :: t, k => if kp.1 == k then some kp.2 else mapGet t k

/-- Method `Map.prototype.set`: overwrite the entry for `k` in place if present,
else append at the end (insertion order). -/
def mapSet : List (String × ρ) → String → ρ → List (String × ρ)
  | [], k, v => [(k, v)]
  | kp :: t, k, v => if kp.1 == k then (k, v) :: t else kp :: mapSet t k v

/-- Method `Map.prototype.delete` (ignoring the returned boolean): remove the entry
for `k`, if any. -/
def mapDelete : List (String × ρ) → String → List (String × ρ)
  | [], _ => []
  | kp :: t, k => if kp.1 == k then t else kp :: mapDelete t k

/-- Method `Map.prototype.size`. -/
def mapSize (m : List (String × ρ)) : Nat :=
  m.length

end JsMap

section RoomModel

variable {α : Type} [LinearOrderedField α]

/-- The `Room` class (src/room.ts).  `tickerHandle` (the `setInterval`
handle) is modelled by the flag `running`; `tickCallbacks` holds no state
that the claims mention (the only callback registered by src/index.ts
broadcasts `person-update` messages and mutates nothing), so the observer
list is not part of the state. -/
structure Room (α : Type) where
  people : List (String × Person α)
  gravity : α
  running : Bool
  serverTime : Nat
deriving DecidableEq, Repr

/-- Constructor `new Room(gravity)`: empty people map, `serverTime = 0`, loop not
started. -/
def Room.new (gravity : α) : Room α :=
  { people := [], gravity := gravity, running := false, serverTime := 0 }

/-- Method `Room.start`: begins the periodic tick loop. -/
def Room.start (r : Room α) : Room α :=
  { r with running := true }

/-- Method `Room.stop`: `clearInterval(this.tickerHandle)`. -/
def Room.stop (r : Room α) : Room α :=
  { r with running := false }

/-- First loop of `Room.tick`: `if (!person.flying) velocity.y -= gravity *
TICK_LENGTH`. -/
def applyGravity (g : α) (p : Person α) : Person α :=
  if p.flying then p
  else { p with velocity := { p.velocity with y := p.velocity.y - g * TICK_LENGTH α } }

/-- Second loop of `Room.tick`, integration part: `position += velocity *
TICK_LENGTH` componentwise. -/
def integrate (p : Person α) : Person α :=
  { p with position :=
      { x := p.position.x + p.velocity.x * TICK_LENGTH α
        y := p.position.y + p.velocity.y * TICK_LENGTH α
        z := p.position.z + p.velocity.z * TICK_LENGTH α } }

/-- Second loop of `Room.tick`, floor clamp: `if (position.y < FLOOR_Y) {
velocity.y = 0; position.y = FLOOR_Y }`. -/
def clampFloor (p : Person α) : Person α :=
  if p.position.y < FLOOR_Y α then
    { p with velocity := { p.velocity with y := 0 }
             position := { p.position with y := FLOOR_Y α } }
  else p

/-- The full per-person effect of one tick: gravity, then integration, then
the floor clamp. -/
def tickPerson (g : α) (p : Person α) : Person α :=
  clampFloor (integrate (applyGravity g p))

/-- Method `Room.tick` (src/room.ts): gravity loop over all people, then the
integration-and-clamp loop over all people, then `serverTime += 1`.  The tick
callbacks fire after this and mutate no room state. -/
def Room.tick (r : Room α) : Room α :=
  let afterForces := r.people.map fun kp => (kp.1, applyGravity r.gravity kp.2)
  let afterVelocities := afterForces.map fun kp => (kp.1, clampFloor (integrate kp.2))
  { r with people := afterVelocities, serverTime := r.serverTime + 1 }

/-- Performs `n` consecutive executions of `Room.tick` with no intervening events. -/
def Room.ticks (r : Room α) : Nat → Room α
  | 0 => r
  | n + 1 => (r.ticks n).tick

end RoomModel

/-- Well-formedness of a modelled JS `Map`: keys are pairwise distinct.
Every `Map` object satisfies this by construction, and all the registry
operations preserve it. -/
def keysNodup {ρ : Type} (m : List (String × ρ)) : Prop :=
  (m.map Prod.fst).Nodup

instance {ρ : Type} (m : List (String × ρ)) : Decidable (keysNodup m) := by
  unfold keysNodup
  exact List.nodupDecidable _

section JsMapLemmas

variable {ρ σ : Type}

theorem mapGet_isSome_iff_mapHas (m : List (String × ρ)) (k : String) :
    (mapGet m k).isSome = mapHas m k := by
  induction m with
  | nil => rfl
  | cons a t ih =>
    by_cases h : a.1 == k <;> simp [mapGet, mapHas, h, ih]

theorem mapGet_map_value (m : List (String × ρ)) (f : ρ → σ) (k : String) :
    mapGet (m.map fun kp => (kp.1, f kp.2)) k = (mapGet m k).map f := by
  induction m with
  | nil => rfl
  | cons a t ih =>
    by_cases h : a.1 == k <;> simp [mapGet, h, ih]

theorem mapGet_mapSet_self (m : List (String × ρ)) (k : String) (v : ρ) :
    mapGet (mapSet m k v) k = some v := by
  induction m with
  | nil => simp [mapSet, mapGet]
  | cons a t ih =>
    by_cases h : a.1 == k <;> simp [mapSet, mapGet, h, ih]

theorem mapGet_mapSet_ne (m : List (String × ρ)) (k k' : String) (v : ρ)
    (hne : k' ≠ k) : mapGet (mapSet m k v) k' = mapGet m k' := by
  have hkk' : (k == k') = false := by
    simpa using fun hc => hne hc.symm
  induction m with
  | nil => simp [mapSet, mapGet, hkk']
  | cons a t ih =>
    by_cases h : a.1 == k
    · have hak : a.1 = k := by simpa using h
      simp [mapSet, mapGet, h, hak, hkk']
    · by_cases h' : a.1 == k' <;> simp [mapSet, mapGet, h, h', ih]

theorem mapSet_same (m : List (String × ρ)) (k : String) (v : ρ)
    (h : mapGet m k = some v) : mapSet m k v = m := by
  induction m with
  | nil => simp [mapGet] at h
  | cons a t ih =>
    by_cases ha : a.1 == k
    · have hak : a.1 = k := by simpa using ha
      have hv : a.2 = v := by simpa [mapGet, ha] using h
      simp [mapSet, ha, ← hak, ← hv]
    · have := ih (by simpa [mapGet, ha] using h)
      simp [mapSet, ha, this]

theorem mapGet_eq_none_of_not_key (m : List (String × ρ)) (k : String)
    (h : k ∉ m.map Prod.fst) : mapGet m k = none := by
  induction m with
  | nil => rfl
  | cons a t ih =>
    simp only [List.map_cons, List.mem_cons] at h
    have ha : (a.1 == k) = false := by
      simpa using fun hc => h (Or.inl hc.symm)
    simp [mapGet, ha, ih fun hc => h (Or.inr hc)]

theorem mapGet_mapDelete_self (m : List (String × ρ)) (k : String)
    (hnd : keysNodup m) : mapGet (mapDelete m k) k = none := by
  induction m with
  | nil => rfl
  | cons a t ih =>
    have hnd' : keysNodup t := (List.nodup_cons.mp hnd).2
    by_cases ha : a.1 == k
    · have hak : a.1 = k := by simpa using ha
      have hnotin : k ∉ t.map Prod.fst := hak ▸ (List.nodup_cons.mp hnd).1
      rw [mapDelete, if_pos ha]
      exact mapGet_eq_none_of_not_key t k hnotin
    · simpa [mapDelete, mapGet, ha] using ih hnd'

theorem mapGet_mapDelete_ne (m : List (String × ρ)) (k k' : String)
    (hne : k' ≠ k) : mapGet (mapDelete m k) k' = mapGet m k' := by
  induction m with
  | nil => rfl
  | cons a t ih =>
    by_cases ha : a.1 == k
    · have hak : a.1 = k := by simpa using ha
      have : (a.1 == k') = false := by
        simp [hak]; exact fun hc => hne hc.symm
      simp [mapDelete, mapGet, ha, this]
    · by_cases ha' : a.1 == k' <;> simp [mapDelete, mapGet, ha, ha', ih]

theorem mapDelete_of_not_mapHas (m : List (String × ρ)) (k : String)
    (h : mapHas m k = false) : mapDelete m k = m := by
  induction m with
  | nil => rfl
  | cons a t ih =>
    have ha : (a.1 == k) = false := by
      by_contra hc
      simp [mapHas, eq_true_of_ne_false hc] at h
    have ht : mapHas t k = false := by
      simpa [mapHas, ha] using h
    simp [mapDelete, ha, ih ht]

theorem mapGet_eq_none_of_not_mapHas (m : List (String × ρ)) (k : String)
    (h : mapHas m k = false) : mapGet m k = none := by
  have := mapGet_isSome_iff_mapHas m k
  rw [h] at this
  exact Option.not_isSome_iff_eq_none.mp (by simp [this])

theorem mapHas_eq_false_of_mapGet_none (m : List (String × ρ)) (k : String)
    (h : mapGet m k = none) : mapHas m k = false := by
  have := mapGet_isSome_iff_mapHas m k
  rw [h] at this
  simpa using this.symm

theorem mapHas_of_mapGet_some (m : List (String × ρ)) (k : String) (v : ρ)
    (h : mapGet m k = some v) : mapHas m k = true := by
  have := mapGet_isSome_iff_mapHas m k
  rw [h] at this
  simpa using this.symm

end JsMapLemmas

section RegistryModel

variable {α : Type} [LinearOrderedField α]

/-- The process-wide `rooms` map (src/index.ts): room id → `Room`. -/
abbrev Registry (α : Type) := List (String × Room α)

/-- Function `addToRoom(roomId, userId, person)` (src/index.ts): throws
`"Room does not exist: " + roomId` when `!rooms.has(roomId)`; otherwise
`rooms.get(roomId).people.set(userId, person)`.  The thrown error is the
`Except.error` case; mutation of the stored `Room` is modelled by writing the
updated room back under its id. -/
def addToRoom (rooms : Registry α) (roomId userId : String)
    (person : Person α) : Except String (Registry α) :=
  match mapGet rooms roomId with
  | none => Except.error ("Room does not exist: " ++ roomId)
  | some room =>
      Except.ok (mapSet rooms roomId
        { room with people := mapSet room.people userId person })

/-- Function `removeRoom(roomId)` (src/index.ts): if the room exists, `stop()` its
tick loop and delete it from the registry. -/
def removeRoom (rooms : Registry α) (roomId : String) : Registry α :=
  match mapGet rooms roomId with
  | none => rooms
  | some room => mapDelete (mapSet rooms roomId room.stop) roomId

/-- Function `removeFromRoom(roomId, userId)` (src/index.ts): if the room exists,
delete the occupant; if the room's people map then has size 0, tear the room
down via `removeRoom`. -/
def removeFromRoom (rooms : Registry α) (roomId userId : String) : Registry α :=
  match mapGet rooms roomId with
  | none => rooms
  | some room =>
      let room' := { room with people := mapDelete room.people userId }
      let rooms' := mapSet rooms roomId room'
      if mapSize room'.people = 0 then removeRoom rooms' roomId else rooms'

/-- Room creation on first join (`socket.on("room")`, src/index.ts): if the
registry has no room under `roomId`, construct `new Room(DEFAULT_GRAVITY)`,
register the broadcast tick callback (which mutates nothing), `start()` the
loop and register the room.  The gravity value is a parameter because
`GRAVITY.EARTH` is defined in `src/gravity.ts`, outside the modelled core. -/
def ensureRoom (rooms : Registry α) (roomId : String) (gravity : α) :
    Registry α :=
  if mapHas rooms roomId then rooms
  else mapSet rooms roomId (Room.start (Room.new gravity))

/-- One firing of the per-room `setInterval` callback: ticks the room under
`roomId` if it is registered and its loop is running.  `removeRoom` calls
`stop()` before unregistering a room, so intervals fire exactly for
registered, running rooms. -/
def registryTick (rooms : Registry α) (roomId : String) : Registry α :=
  match mapGet rooms roomId with
  | none => rooms
  | some room =>
      if room.running then mapSet rooms roomId room.tick else rooms

end RegistryModel

section EventHandlers

variable {α : Type} [LinearOrderedField α]

/-- Handler `socket.on("set-flying")`: `person.flying = flying`. -/
def setFlying (p : Person α) (flying : Bool) : Person α :=
  { p with flying := flying }

/-- Handler `socket.on("jump")`: `person.velocity.y = speed` (default 2). -/
def jump (p : Person α) (speed : α) : Person α :=
  { p with velocity := { p.velocity with y := speed } }

/-- Handler `socket.on("fly")`: `person.position.y += magnitude`. -/
def fly (p : Person α) (magnitude : α) : Person α :=
  { p with position := { p.position with y := p.position.y + magnitude } }

/-- Handler `socket.on("color")`: `person.color = color`. -/
def setColor (p : Person α) (color : String) : Person α :=
  { p with color := color }

/-- Handler `socket.on("shape")`: `person.shape = shape`. -/
def setShape (p : Person α) (shape : String) : Person α :=
  { p with shape := shape }

/-- Handler `socket.on("set-yaw")`: `person.yaw = yaw` (plus a broadcast). -/
def setYaw (p : Person α) (yaw : α) : Person α :=
  { p with yaw := yaw }

/-- Handler `socket.on("set-pitch")`: `person.pitch = pitch` (plus a broadcast). -/
def setPitch (p : Person α) (pitch : α) : Person α :=
  { p with pitch := pitch }

/-- Overwriting a person's username (the intent of `socket.on("username")`;
see `usernameEvent` for what the handler actually executes). -/
def setUsername (p : Person α) (text : String) : Person α :=
  { p with username := text }

/-- Handler `socket.on("move-forwards-backwards")`:
`position.z += magnitude * Math.cos(yaw); position.x -= magnitude *
Math.sin(yaw)`. -/
noncomputable def moveForwardsBackwards (p : Person ℝ) (magnitude : ℝ) :
    Person ℝ :=
  { p with position :=
      { p.position with
          z := p.position.z + magnitude * Real.cos p.yaw
          x := p.position.x - magnitude * Real.sin p.yaw } }

/-- Handler `socket.on("move-right-left")`:
`position.z += magnitude * Math.sin(yaw); position.x += magnitude *
Math.cos(yaw)`. -/
noncomputable def moveRightLeft (p : Person ℝ) (magnitude : ℝ) : Person ℝ :=
  { p with position :=
      { p.position with
          z := p.position.z + magnitude * Real.sin p.yaw
          x := p.position.x + magnitude * Real.cos p.yaw } }

/-- JS truncation towards zero, as used by the `%` operator. -/
noncomputable def jsTrunc (x : ℝ) : ℤ :=
  if 0 ≤ x then ⌊x⌋ else ⌈x⌉

/-- The JS remainder operator `x % y`: `x - y * trunc(x / y)` (the result
has the sign of the dividend). -/
noncomputable def jsMod (x y : ℝ) : ℝ :=
  x - y * jsTrunc (x / y)

/-- Handler `socket.on("rotate-counterclockwise")`: `yaw += radians; if (yaw >
Math.PI * 2) yaw = (yaw % Math.PI) * 2`. -/
noncomputable def rotateCounterclockwise (p : Person ℝ) (radians : ℝ) :
    Person ℝ :=
  let p' : Person ℝ := { p with yaw := p.yaw + radians }
  if p'.yaw > Real.pi * 2 then { p' with yaw := jsMod p'.yaw Real.pi * 2 }
  else p'

/-- JS bracket access `rooms[roomId]` on a `Map` object: reads an *own
property* of the object, not a map entry.  Entries stored with
`Map.prototype.set` live in internal slots, never as properties, so the
access yields `undefined` for every room id (for id strings colliding with
`Map.prototype` members the result is a method or number, on which the
subsequent `.people` is again `undefined`; no stored `Room` is ever
reached). -/
def mapIndexAccess (_rooms : Registry α) (_roomId : String) :
    Option (Room α) :=
  none

/-- Handler `socket.on("username")` (src/index.ts): `if (roomID) {
rooms[roomID].people.get(userID).username = username; }`.  `none` models a
thrown `TypeError` (reading `.people` of `undefined`). -/
def usernameEvent (rooms : Registry α) (roomId userId text : String) :
    Option (Registry α) :=
  if roomId = "" then some rooms
  else
    match mapIndexAccess rooms roomId with
    | none => none
    | some room =>
        match mapGet room.people userId with
        | none => none
        | some p =>
            some (mapSet rooms roomId
              { room with people := mapSet room.people userId (setUsername p text) })

end EventHandlers

section RoomOperations

/-- A client-driven mutation of one `Person`, as performed by the
src/index.ts socket handlers between ticks. -/
inductive PersonEvent where
  | setFlyingE (b : Bool)
  | jumpE (speed : ℝ)
  | flyE (magnitude : ℝ)
  | colorE (c : String)
  | shapeE (s : String)
  | moveFB (magnitude : ℝ)
  | moveRL (magnitude : ℝ)
  | rotateCCW (radians : ℝ)
  | setYawE (yaw : ℝ)
  | setPitchE (pitch : ℝ)
  | setUsernameE (text : String)

/-- Dispatch of a `PersonEvent` to the corresponding handler. -/
noncomputable def applyEvent (p : Person ℝ) : PersonEvent → Person ℝ
  | .setFlyingE b => setFlying p b
  | .jumpE speed => jump p speed
  | .flyE magnitude => fly p magnitude
  | .colorE c => setColor p c
  | .shapeE s => setShape p s
  | .moveFB magnitude => moveForwardsBackwards p magnitude
  | .moveRL magnitude => moveRightLeft p magnitude
  | .rotateCCW radians => rotateCounterclockwise p radians
  | .setYawE yaw => setYaw p yaw
  | .setPitchE pitch => setPitch p pitch
  | .setUsernameE text => setUsername p text

/-- Everything the code ever does to a single `Room`: ticks, loop control,
occupant insertion/removal, and the event-driven person mutations. -/
inductive RoomOp where
  | tickOp
  | startOp
  | stopOp
  | addPerson (uid : String) (p : Person ℝ)
  | removePerson (uid : String)
  | personEvent (uid : String) (e : PersonEvent)

/-- Apply one `RoomOp` to a room. -/
noncomputable def Room.applyOp (r : Room ℝ) : RoomOp → Room ℝ
  | .tickOp => r.tick
  | .startOp => r.start
  | .stopOp => r.stop
  | .addPerson uid p => { r with people := mapSet r.people uid p }
  | .removePerson uid => { r with people := mapDelete r.people uid }
  | .personEvent uid e =>
      match mapGet r.people uid with
      | none => r
      | some p => { r with people := mapSet r.people uid (applyEvent p e) }

/-- Apply a sequence of `RoomOp`s from left to right. -/
noncomputable def Room.applyOps (r : Room ℝ) (ops : List RoomOp) : Room ℝ :=
  ops.foldl Room.applyOp r

end RoomOperations

section TickLemmas

variable {α : Type} [LinearOrderedField α]

theorem Room.tick_people (r : Room α) :
    r.tick.people = r.people.map fun kp => (kp.1, tickPerson r.gravity kp.2) := by
  simp only [Room.tick, List.map_map]
  rfl

theorem Room.tick_gravity (r : Room α) : r.tick.gravity = r.gravity := rfl

theorem Room.tick_serverTime (r : Room α) :
    r.tick.serverTime = r.serverTime + 1 := rfl

theorem mapGet_tick (r : Room α) (uid : String) :
    mapGet r.tick.people uid = (mapGet r.people uid).map (tickPerson r.gravity) := by
  rw [Room.tick_people, mapGet_map_value]

theorem Room.ticks_gravity (r : Room α) (n : Nat) :
    (r.ticks n).gravity = r.gravity := by
  induction n with
  | zero => rfl
  | succ n ih => simp [Room.ticks, Room.tick_gravity, ih]

theorem mapGet_ticks (r : Room α) (uid : String) (n : Nat) :
    mapGet (r.ticks n).people uid =
      (mapGet r.people uid).map ((tickPerson r.gravity)^[n]) := by
  induction n with
  | zero => simp [Room.ticks]
  | succ n ih =>
    rw [Room.ticks, mapGet_tick, Room.ticks_gravity, ih]
    cases mapGet r.people uid with
    | none => rfl
    | some q =>
      simp only [Option.map_some']
      exact congrArg some
        ((Function.iterate_succ_apply' _ _ _).symm.trans
          (Function.iterate_succ_apply _ _ _))

theorem applyGravity_flying (g : α) (p : Person α) :
    (applyGravity g p).flying = p.flying := by
  unfold applyGravity
  split <;> rfl

theorem applyGravity_velocity_y (g : α) (p : Person α) (hf : p.flying = false) :
    (applyGravity g p).velocity.y = p.velocity.y - g * TICK_LENGTH α := by
  simp [applyGravity, hf]

theorem applyGravity_of_flying (g : α) (p : Person α) (hf : p.flying = true) :
    applyGravity g p = p := by
  simp [applyGravity, hf]

theorem integrate_velocity (p : Person α) : (integrate p).velocity = p.velocity := rfl

theorem integrate_flying (p : Person α) : (integrate p).flying = p.flying := rfl

theorem clampFloor_of_not_lt (p : Person α)
    (h : ¬ p.position.y < FLOOR_Y α) : clampFloor p = p := by
  simp [clampFloor, h]

theorem clampFloor_flying (p : Person α) : (clampFloor p).flying = p.flying := by
  unfold clampFloor
  split <;> rfl

theorem clampFloor_floor_le (p : Person α) :
    FLOOR_Y α ≤ (clampFloor p).position.y := by
  unfold clampFloor
  split
  · simp
  · next h => exact le_of_not_lt h

theorem tickPerson_flying (g : α) (p : Person α) :
    (tickPerson g p).flying = p.flying := by
  rw [tickPerson, clampFloor_flying, integrate_flying, applyGravity_flying]

theorem tickPerson_iterate_flying (g : α) (p : Person α) (n : Nat) :
    ((tickPerson g)^[n] p).flying = p.flying := by
  induction n with
  | zero => rfl
  | succ n ih => rw [Function.iterate_succ_apply', tickPerson_flying, ih]

end TickLemmas

/-- A concrete occupant used for evaluating the model: the default person of
`createPerson()` (src/index.ts). -/
def samplePerson : Person ℚ :=
  { position := ⟨0, 0, 0⟩
    velocity := ⟨0, 0, 0⟩
    yaw := 0
    pitch := 0
    username := "Person"
    flying := false
    color := "#ff7700"
    shape := "cube" }

/-- A concrete started room holding `samplePerson` under occupant id "u". -/
def sampleRoom : Room ℚ :=
  { people := [("u", samplePerson)]
    gravity := 10
    running := true
    serverTime := 0 }

/-- C1: for every Room and every Person in it, immediately after a tick
completes the Person's `position.y` is at least the floor constant 0;
moreover, if `position.y` was clamped during that tick (the post-integration
`position.y` was below 0), that Person's `velocity.y` equals 0 immediately
after the same tick. -/
theorem c1_floor_invariant {α : Type} [LinearOrderedField α] (r : Room α)
    (uid : String) (p : Person α) (h : mapGet r.people uid = some p) :
    mapGet r.tick.people uid = some (tickPerson r.gravity p) ∧
    FLOOR_Y α ≤ (tickPerson r.gravity p).position.y ∧
    ((integrate (applyGravity r.gravity p)).position.y < FLOOR_Y α →
      (tickPerson r.gravity p).velocity.y = 0) := by
  refine ⟨by rw [mapGet_tick, h]; rfl, clampFloor_floor_le _, fun hc => ?_⟩
  simp [tickPerson, clampFloor, hc]

/-- Witness for C1 at a concrete room: `sampleRoom`'s occupant "u" starts at
rest on the floor; the tick's gravity pulls the integrated `position.y`
below 0, and after the tick the position is clamped to 0 with zero vertical
velocity. -/
theorem c1_floor_invariant_witness :
    mapGet sampleRoom.tick.people "u" = some (tickPerson sampleRoom.gravity samplePerson) ∧
    FLOOR_Y ℚ ≤ (tickPerson sampleRoom.gravity samplePerson).position.y ∧
    ((integrate (applyGravity sampleRoom.gravity samplePerson)).position.y < FLOOR_Y ℚ →
      (tickPerson sampleRoom.gravity samplePerson).velocity.y = 0) :=
  c1_floor_invariant sampleRoom "u" samplePerson (by decide)

/-- C9: one execution of `tick` rewrites every occupant by `tickPerson` and
`tickPerson` may change only `position.x/y/z` and `velocity.y`: `velocity.x`,
`velocity.z`, `yaw`, `pitch`, `username`, `flying`, `color` and `shape` are
unchanged, and the room's key set and gravity are unchanged. -/
theorem c9_tick_frame {α : Type} [LinearOrderedField α] (r : Room α)
    (g : α) (p : Person α) :
    r.tick.people = (r.people.map fun kp => (kp.1, tickPerson r.gravity kp.2)) ∧
    r.tick.people.map Prod.fst = r.people.map Prod.fst ∧
    r.tick.gravity = r.gravity ∧
    (tickPerson g p).velocity.x = p.velocity.x ∧
    (tickPerson g p).velocity.z = p.velocity.z ∧
    (tickPerson g p).yaw = p.yaw ∧
    (tickPerson g p).pitch = p.pitch ∧
    (tickPerson g p).username = p.username ∧
    (tickPerson g p).flying = p.flying ∧
    (tickPerson g p).color = p.color ∧
    (tickPerson g p).shape = p.shape := by
  refine ⟨Room.tick_people r, ?_, rfl, ?_⟩
  · rw [Room.tick_people r, List.map_map]
    rfl
  · unfold tickPerson clampFloor integrate applyGravity
    split <;> split <;> simp

/-- C10: the `fly(magnitude)` event adds exactly `magnitude` to `position.y`
with no floor clamping and no other change; when `position.y + magnitude`
is negative the person is below the floor constant immediately after the
event, and the next tick's clamp restores `position.y ≥ 0`. -/
theorem c10_fly_event {α : Type} [LinearOrderedField α] (p : Person α) (m : α) :
    (fly p m).position.y = p.position.y + m ∧
    (fly p m).position.x = p.position.x ∧
    (fly p m).position.z = p.position.z ∧
    (fly p m).velocity = p.velocity ∧
    (fly p m).yaw = p.yaw ∧
    (fly p m).pitch = p.pitch ∧
    (fly p m).username = p.username ∧
    (fly p m).flying = p.flying ∧
    (fly p m).color = p.color ∧
    (fly p m).shape = p.shape ∧
    (p.position.y + m < FLOOR_Y α → (fly p m).position.y < FLOOR_Y α) ∧
    (∀ g : α, FLOOR_Y α ≤ (tickPerson g (fly p m)).position.y) := by
  refine ⟨rfl, rfl, rfl, rfl, rfl, rfl, rfl, rfl, rfl, rfl, fun h => h, fun g => ?_⟩
  exact clampFloor_floor_le _

/-- Witness for C10: flying down by 1 from the floor puts `samplePerson` at
`position.y = -1 < 0`. -/
theorem c10_fly_event_witness :
    (fly samplePerson (-1)).position.y = samplePerson.position.y + (-1) ∧
    samplePerson.position.y + (-1) < FLOOR_Y ℚ ∧
    (fly samplePerson (-1)).position.y < FLOOR_Y ℚ :=
  ⟨(c10_fly_event samplePerson (-1)).1, by norm_num [samplePerson, FLOOR_Y],
    (c10_fly_event samplePerson (-1)).2.2.2.2.2.2.2.2.2.2.1
      (by norm_num [samplePerson, FLOOR_Y])⟩

/-- Predicate for "the floor clamp never triggers during the first `n` ticks": at every
tick `k < n` the post-integration `position.y` is not below `FLOOR_Y`. -/
def noClampDuring {α : Type} [LinearOrderedField α] (g : α) (p : Person α)
    (n : Nat) : Prop :=
  ∀ k < n,
    ¬ (integrate (applyGravity g ((tickPerson g)^[k] p))).position.y < FLOOR_Y α

instance {α : Type} [LinearOrderedField α] (g : α) (p : Person α) (n : Nat) :
    Decidable (noClampDuring g p n) := by
  unfold noClampDuring
  exact Nat.decidableBallLT n _

theorem velocity_y_after_iterate {α : Type} [LinearOrderedField α] (g : α)
    (p : Person α) (n : Nat) (hf : p.flying = false)
    (hnc : noClampDuring g p n) :
    ((tickPerson g)^[n] p).velocity.y =
      p.velocity.y - g * TICK_LENGTH α * n := by
  induction n with
  | zero => simp
  | succ n ih =>
    have hnc' : noClampDuring g p n := fun k hk => hnc k (hk.trans (Nat.lt_succ_self n))
    have hq := ih hnc'
    set q := (tickPerson g)^[n] p with hqdef
    have hqf : q.flying = false := by rw [hqdef, tickPerson_iterate_flying, hf]
    have hclamp := hnc n (Nat.lt_succ_self n)
    rw [Function.iterate_succ_apply', ← hqdef, tickPerson,
      clampFloor_of_not_lt _ hclamp]
    have : (integrate (applyGravity g q)).velocity.y = (applyGravity g q).velocity.y := rfl
    rw [this, applyGravity_velocity_y g q hqf, hq]
    push_cast
    ring

/-- C2: for a non-flying Person whose floor clamp never triggers, after `n`
consecutive ticks with no intervening events `velocity.y` equals its initial
value minus `gravity * tickLength * n`; and for a flying Person the tick's
gravity step is the identity at every tick. -/
theorem c2_gravity_accumulation {α : Type} [LinearOrderedField α] (r : Room α)
    (uid : String) (p : Person α) (n : Nat)
    (h : mapGet r.people uid = some p) :
    mapGet (r.ticks n).people uid = some ((tickPerson r.gravity)^[n] p) ∧
    (p.flying = false → noClampDuring r.gravity p n →
      ((tickPerson r.gravity)^[n] p).velocity.y =
        p.velocity.y - r.gravity * TICK_LENGTH α * n) ∧
    (p.flying = true →
      applyGravity r.gravity ((tickPerson r.gravity)^[n] p) =
        (tickPerson r.gravity)^[n] p) := by
  refine ⟨by rw [mapGet_ticks, h]; rfl,
    fun hf hnc => velocity_y_after_iterate r.gravity p n hf hnc,
    fun hf => applyGravity_of_flying _ _ ?_⟩
  rw [tickPerson_iterate_flying, hf]

/-- A flying occupant, used to evaluate the flying half of C2. -/
def samplePersonFlying : Person ℚ :=
  { samplePerson with flying := true, position := ⟨0, 5, 0⟩ }

/-- A room holding a falling occupant "u" high above the floor and a flying
occupant "w". -/
def sampleRoom2 : Room ℚ :=
  { people := [("u", { samplePerson with position := ⟨0, 5, 0⟩ }), ("w", samplePersonFlying)]
    gravity := 10
    running := true
    serverTime := 0 }

/-- Witness for C2 at two concrete occupants of `sampleRoom2`: after 2 ticks
the falling occupant's `velocity.y` is `0 - 10 * (1/60) * 2 = -1/3`, and the
gravity step leaves the flying occupant untouched. -/
theorem c2_gravity_accumulation_witness :
    (((tickPerson (sampleRoom2.gravity))^[2]
        ({ samplePerson with position := ⟨0, 5, 0⟩ } : Person ℚ)).velocity.y =
      ({ samplePerson with position := ⟨0, 5, 0⟩ } : Person ℚ).velocity.y -
        sampleRoom2.gravity * TICK_LENGTH ℚ * 2) ∧
    (applyGravity sampleRoom2.gravity ((tickPerson sampleRoom2.gravity)^[2] samplePersonFlying) =
      (tickPerson sampleRoom2.gravity)^[2] samplePersonFlying) :=
  ⟨((c2_gravity_accumulation sampleRoom2 "u" _ 2 (by decide)).2.1 (by decide)
      (by
        intro k hk
        interval_cases k <;>
          norm_num [sampleRoom2, samplePerson, tickPerson, clampFloor,
            integrate, applyGravity, TICK_LENGTH, FLOOR_Y])),
    ((c2_gravity_accumulation sampleRoom2 "w" samplePersonFlying 2 (by decide)).2.2 (by decide))⟩

theorem Room.applyOp_serverTime_ge (r : Room ℝ) (op : RoomOp) :
    r.serverTime ≤ (r.applyOp op).serverTime := by
  cases op with
  | tickOp =>
    rw [Room.applyOp, Room.tick_serverTime]
    exact Nat.le_succ _
  | startOp => exact Nat.le_refl _
  | stopOp => exact Nat.le_refl _
  | addPerson uid p => exact Nat.le_refl _
  | removePerson uid => exact Nat.le_refl _
  | personEvent uid e =>
    rw [Room.applyOp]
    cases mapGet r.people uid <;> exact Nat.le_refl _

theorem Room.applyOps_serverTime_ge (r : Room ℝ) (ops : List RoomOp) :
    r.serverTime ≤ (r.applyOps ops).serverTime := by
  induction ops generalizing r with
  | nil => exact Nat.le_refl _
  | cons op rest ih =>
    exact (Room.applyOp_serverTime_ge r op).trans (ih (r.applyOp op))

/-- C3: `serverTime` is 0 at construction, each `tick` increases it by
exactly 1, and it never decreases over any sequence of room operations
(ticks, loop control, occupant insertion/removal, person events). -/
theorem c3_serverTime_monotone :
    (∀ g : ℝ, (Room.new g).serverTime = 0) ∧
    (∀ r : Room ℝ, r.tick.serverTime = r.serverTime + 1) ∧
    (∀ (r : Room ℝ) (ops : List RoomOp),
      r.serverTime ≤ (r.applyOps ops).serverTime) :=
  ⟨fun _ => rfl, fun _ => rfl, Room.applyOps_serverTime_ge⟩

section RegistryLemmas

variable {ρ : Type}

theorem mem_keys_mapSet (m : List (String × ρ)) (k x : String) (v : ρ)
    (h : x ∈ (mapSet m k v).map Prod.fst) : x ∈ m.map Prod.fst ∨ x = k := by
  induction m with
  | nil =>
    simp only [mapSet, List.map_cons, List.map_nil, List.mem_cons,
      List.not_mem_nil, or_false] at h
    exact Or.inr h
  | cons a t ih =>
    simp only [List.map_cons, List.mem_cons]
    by_cases ha : a.1 == k
    · rw [show mapSet (a :: t) k v = (k, v) :: t by simp [mapSet, ha]] at h
      simp only [List.map_cons, List.mem_cons] at h
      rcases h with h | h
      · exact Or.inr h
      · exact Or.inl (Or.inr h)
    · rw [show mapSet (a :: t) k v = a :: mapSet t k v by simp [mapSet, ha]] at h
      simp only [List.map_cons, List.mem_cons] at h
      rcases h with h | h
      · exact Or.inl (Or.inl h)
      · rcases ih h with h' | h'
        · exact Or.inl (Or.inr h')
        · exact Or.inr h'

theorem keysNodup_mapSet (m : List (String × ρ)) (k : String) (v : ρ)
    (h : keysNodup m) : keysNodup (mapSet m k v) := by
  induction m with
  | nil => simp [mapSet, keysNodup]
  | cons a t ih =>
    have h0 : (a.1 :: t.map Prod.fst).Nodup := by simpa [keysNodup] using h
    have h1 := (List.nodup_cons.mp h0).1
    have h2 : keysNodup t := (List.nodup_cons.mp h0).2
    by_cases ha : a.1 == k
    · have hak : a.1 = k := by simpa using ha
      rw [show mapSet (a :: t) k v = (k, v) :: t by simp [mapSet, ha]]
      unfold keysNodup
      simp only [List.map_cons]
      exact List.nodup_cons.mpr ⟨hak ▸ h1, h2⟩
    · rw [show mapSet (a :: t) k v = a :: mapSet t k v by simp [mapSet, ha]]
      unfold keysNodup
      simp only [List.map_cons]
      refine List.nodup_cons.mpr ⟨fun hc => ?_, ih h2⟩
      rcases mem_keys_mapSet t k a.1 v hc with h' | h'
      · exact h1 h'
      · exact absurd h' (by simpa using ha)

end RegistryLemmas

/-- C4: `removeFromRoom(roomId, occupantId)` removes the Person when the
room exists; when the removal empties the room's people map the room is
immediately stopped and unregistered, so its tick never fires again; the
call is a no-op when the room or the occupant does not exist (a registered
room is never empty, since a room is torn down the instant it empties); and
a later join to the same id creates a fresh started room with
`serverTime = 0`. -/
theorem c4_removeOccupant {α : Type} [LinearOrderedField α]
    (reg : Registry α) (roomId uid : String) (g : α) :
    (mapGet reg roomId = none → removeFromRoom reg roomId uid = reg) ∧
    (∀ room : Room α, mapGet reg roomId = some room →
      (mapHas room.people uid = false → room.people ≠ [] →
        removeFromRoom reg roomId uid = reg) ∧
      (mapSize (mapDelete room.people uid) ≠ 0 →
        mapGet (removeFromRoom reg roomId uid) roomId =
          some { room with people := mapDelete room.people uid } ∧
        (keysNodup room.people →
          mapGet (mapDelete room.people uid) uid = none)) ∧
      (keysNodup reg → mapSize (mapDelete room.people uid) = 0 →
        mapHas (removeFromRoom reg roomId uid) roomId = false ∧
        registryTick (removeFromRoom reg roomId uid) roomId =
          removeFromRoom reg roomId uid)) ∧
    (mapHas reg roomId = false →
      mapGet (ensureRoom reg roomId g) roomId = some (Room.start (Room.new g)) ∧
      (Room.start (Room.new g)).serverTime = 0) := by
  refine ⟨fun h => by simp [removeFromRoom, h], fun room h => ⟨?_, ?_, ?_⟩, fun h => ?_⟩
  · intro habs hne
    have hdel : mapDelete room.people uid = room.people :=
      mapDelete_of_not_mapHas _ _ habs
    have hsz : ¬ mapSize room.people = 0 := by
      simpa [mapSize, List.length_eq_zero] using hne
    simp [removeFromRoom, h, hdel, hsz, mapSet_same reg roomId room h]
  · intro hsz
    refine ⟨?_, fun hnd => mapGet_mapDelete_self _ _ hnd⟩
    simp [removeFromRoom, h, hsz, mapGet_mapSet_self]
  · intro hnd hsz
    have hres : removeFromRoom reg roomId uid =
        mapDelete
          (mapSet (mapSet reg roomId { room with people := mapDelete room.people uid })
            roomId (Room.stop { room with people := mapDelete room.people uid }))
          roomId := by
      simp [removeFromRoom, h, hsz, removeRoom, mapGet_mapSet_self]
    have hnd2 : keysNodup
        (mapSet (mapSet reg roomId { room with people := mapDelete room.people uid })
          roomId (Room.stop { room with people := mapDelete room.people uid })) :=
      keysNodup_mapSet _ _ _ (keysNodup_mapSet _ _ _ hnd)
    have hnone : mapGet (removeFromRoom reg roomId uid) roomId = none := by
      rw [hres]
      exact mapGet_mapDelete_self _ _ hnd2
    exact ⟨mapHas_eq_false_of_mapGet_none _ _ hnone, by simp [registryTick, hnone]⟩
  · exact ⟨by simp [ensureRoom, h, mapGet_mapSet_self], rfl⟩

/-- A room whose only occupant is "v" (used for the occupant-absent no-op). -/
def roomNoU : Room ℚ :=
  { people := [("v", samplePerson)], gravity := 10, running := true, serverTime := 3 }

/-- A room with occupants "u" and "v". -/
def roomUV : Room ℚ :=
  { people := [("u", samplePerson), ("v", samplePersonFlying)]
    gravity := 10
    running := true
    serverTime := 5 }

/-- Witness for C4 at concrete registries: removal from a missing room and of
a missing occupant are no-ops; removing "u" from `roomUV` keeps the room with
"u" gone; removing the last occupant of `sampleRoom` unregisters the room and
disables its tick; a later `ensureRoom` yields a fresh started room with
`serverTime = 0`. -/
theorem c4_removeOccupant_witness :
    removeFromRoom ([] : Registry ℚ) "A" "u" = [] ∧
    removeFromRoom [("A", roomNoU)] "A" "u" = [("A", roomNoU)] ∧
    mapGet (removeFromRoom [("A", roomUV)] "A" "u") "A" =
      some { roomUV with people := mapDelete roomUV.people "u" } ∧
    mapGet (mapDelete roomUV.people "u") "u" = none ∧
    mapHas (removeFromRoom [("A", sampleRoom)] "A" "u") "A" = false ∧
    registryTick (removeFromRoom [("A", sampleRoom)] "A" "u") "A" =
      removeFromRoom [("A", sampleRoom)] "A" "u" ∧
    mapGet (ensureRoom (removeFromRoom [("A", sampleRoom)] "A" "u") "A" (10 : ℚ)) "A" =
      some (Room.start (Room.new 10)) ∧
    (Room.start (Room.new (10 : ℚ))).serverTime = 0 :=
  ⟨(c4_removeOccupant [] "A" "u" 10).1 rfl,
    ((c4_removeOccupant [("A", roomNoU)] "A" "u" 10).2.1 roomNoU (by decide)).1
      (by decide) (by decide),
    (((c4_removeOccupant [("A", roomUV)] "A" "u" 10).2.1 roomUV (by decide)).2.1
      (by decide)).1,
    (((c4_removeOccupant [("A", roomUV)] "A" "u" 10).2.1 roomUV (by decide)).2.1
      (by decide)).2 (by decide),
    (((c4_removeOccupant [("A", sampleRoom)] "A" "u" 10).2.1 sampleRoom (by decide)).2.2
      (by decide) (by decide)).1,
    (((c4_removeOccupant [("A", sampleRoom)] "A" "u" 10).2.1 sampleRoom (by decide)).2.2
      (by decide) (by decide)).2,
    ((c4_removeOccupant (removeFromRoom [("A", sampleRoom)] "A" "u") "A" "u" 10).2.2
      (by decide)).1,
    ((c4_removeOccupant (removeFromRoom [("A", sampleRoom)] "A" "u") "A" "u" 10).2.2
      (by decide)).2⟩

/-- C5: `addToRoom(roomId, occupantId, person)` fails with the
"Room does not exist" error exactly when `roomId` is absent from the
registry (the thrown error carries no mutation — the registry value is left
untouched); when the room is present the Person is stored under `occupantId`
in that room's people map and every other registry entry is unchanged. -/
theorem c5_addToRoom {α : Type} [LinearOrderedField α] (reg : Registry α)
    (roomId uid : String) (p : Person α) :
    ((∃ e, addToRoom reg roomId uid p = Except.error e) ↔
      mapGet reg roomId = none) ∧
    (mapGet reg roomId = none →
      addToRoom reg roomId uid p =
        Except.error ("Room does not exist: " ++ roomId)) ∧
    (∀ room : Room α, mapGet reg roomId = some room →
      addToRoom reg roomId uid p =
        Except.ok (mapSet reg roomId
          { room with people := mapSet room.people uid p }) ∧
      mapGet (mapSet reg roomId { room with people := mapSet room.people uid p })
          roomId =
        some { room with people := mapSet room.people uid p } ∧
      mapGet (mapSet room.people uid p) uid = some p ∧
      (∀ k, k ≠ roomId →
        mapGet (mapSet reg roomId { room with people := mapSet room.people uid p })
            k =
          mapGet reg k)) := by
  refine ⟨⟨?_, fun h => ⟨"Room does not exist: " ++ roomId, by simp [addToRoom, h]⟩⟩,
    fun h => by simp [addToRoom, h],
    fun room h => ⟨by simp [addToRoom, h], mapGet_mapSet_self _ _ _,
      mapGet_mapSet_self _ _ _, fun k hk => mapGet_mapSet_ne _ _ _ _ hk⟩⟩
  rintro ⟨e, he⟩
  cases hm : mapGet reg roomId with
  | none => rfl
  | some room => simp [addToRoom, hm] at he

/-- Witness for C5: adding to the missing room "A" of the empty registry
fails with the exact error string; adding "w" to `sampleRoom` stores the
person and leaves the (absent) entry "B" unchanged. -/
theorem c5_addToRoom_witness :
    addToRoom ([] : Registry ℚ) "A" "u" samplePerson =
      Except.error ("Room does not exist: " ++ "A") ∧
    addToRoom [("A", sampleRoom)] "A" "w" samplePersonFlying =
      Except.ok (mapSet [("A", sampleRoom)] "A"
        { sampleRoom with people := mapSet sampleRoom.people "w" samplePersonFlying }) ∧
    mapGet (mapSet sampleRoom.people "w" samplePersonFlying) "w" =
      some samplePersonFlying ∧
    mapGet (mapSet [("A", sampleRoom)] "A"
        { sampleRoom with people := mapSet sampleRoom.people "w" samplePersonFlying })
        "B" =
      mapGet [("A", sampleRoom)] "B" :=
  ⟨(c5_addToRoom [] "A" "u" samplePerson).2.1 rfl,
    ((c5_addToRoom [("A", sampleRoom)] "A" "w" samplePersonFlying).2.2 sampleRoom
      (by decide)).1,
    ((c5_addToRoom [("A", sampleRoom)] "A" "w" samplePersonFlying).2.2 sampleRoom
      (by decide)).2.2.1,
    ((c5_addToRoom [("A", sampleRoom)] "A" "w" samplePersonFlying).2.2 sampleRoom
      (by decide)).2.2.2 "B" (by decide)⟩

/-- C7: `move-forwards-backwards(magnitude)` displaces the position by
`Δz = magnitude·cos(yaw)`, `Δx = -magnitude·sin(yaw)` and
`move-right-left(magnitude)` by `Δz = magnitude·sin(yaw)`,
`Δx = magnitude·cos(yaw)`; both leave `position.y`, the velocity, `yaw`,
`pitch`, `username`, `flying`, `color` and `shape` unchanged. -/
theorem c7_move_events (p : Person ℝ) (magnitude : ℝ) :
    (moveForwardsBackwards p magnitude).position.z =
      p.position.z + magnitude * Real.cos p.yaw ∧
    (moveForwardsBackwards p magnitude).position.x =
      p.position.x - magnitude * Real.sin p.yaw ∧
    (moveForwardsBackwards p magnitude).position.y = p.position.y ∧
    (moveForwardsBackwards p magnitude).velocity = p.velocity ∧
    (moveForwardsBackwards p magnitude).yaw = p.yaw ∧
    (moveForwardsBackwards p magnitude).pitch = p.pitch ∧
    (moveForwardsBackwards p magnitude).username = p.username ∧
    (moveForwardsBackwards p magnitude).flying = p.flying ∧
    (moveForwardsBackwards p magnitude).color = p.color ∧
    (moveForwardsBackwards p magnitude).shape = p.shape ∧
    (moveRightLeft p magnitude).position.z =
      p.position.z + magnitude * Real.sin p.yaw ∧
    (moveRightLeft p magnitude).position.x =
      p.position.x + magnitude * Real.cos p.yaw ∧
    (moveRightLeft p magnitude).position.y = p.position.y ∧
    (moveRightLeft p magnitude).velocity = p.velocity ∧
    (moveRightLeft p magnitude).yaw = p.yaw ∧
    (moveRightLeft p magnitude).pitch = p.pitch ∧
    (moveRightLeft p magnitude).username = p.username ∧
    (moveRightLeft p magnitude).flying = p.flying ∧
    (moveRightLeft p magnitude).color = p.color ∧
    (moveRightLeft p magnitude).shape = p.shape :=
  ⟨rfl, rfl, rfl, rfl, rfl, rfl, rfl, rfl, rfl, rfl,
    rfl, rfl, rfl, rfl, rfl, rfl, rfl, rfl, rfl, rfl⟩

/-- A concrete person over `ℝ` with `yaw = 0`, for evaluating the rotation
and movement handlers. -/
noncomputable def samplePersonR : Person ℝ :=
  { position := ⟨0, 0, 0⟩
    velocity := ⟨0, 0, 0⟩
    yaw := 0
    pitch := 0
    username := "Person"
    flying := false
    color := "#ff7700"
    shape := "cube" }

/-- C8: `rotate-counterclockwise(radians)` sets `yaw` to `yaw + radians`
when the sum does not exceed `2π`, and otherwise to
`((yaw + radians) mod π) * 2` (the JS remainder); this transition does not
confine `yaw` to `[0, 2π)` in all cases. -/
theorem c8_rotate_ccw (p : Person ℝ) (radians : ℝ) :
    (p.yaw + radians ≤ Real.pi * 2 →
      (rotateCounterclockwise p radians).yaw = p.yaw + radians) ∧
    (Real.pi * 2 < p.yaw + radians →
      (rotateCounterclockwise p radians).yaw =
        jsMod (p.yaw + radians) Real.pi * 2) ∧
    (∃ (q : Person ℝ) (s : ℝ),
      (rotateCounterclockwise q s).yaw ∉ Set.Ico (0 : ℝ) (2 * Real.pi)) := by
  refine ⟨fun h => ?_, fun h => ?_, ?_⟩
  · simp only [rotateCounterclockwise]
    rw [if_neg (not_lt.mpr h)]
  · simp only [rotateCounterclockwise]
    rw [if_pos h]
  · refine ⟨samplePersonR, -1, ?_⟩
    have hcond : ¬ (samplePersonR.yaw + -1 > Real.pi * 2) := by
      rw [show samplePersonR.yaw = 0 from rfl]
      have := Real.pi_pos
      intro hc
      simp only [gt_iff_lt] at hc
      linarith
    simp only [rotateCounterclockwise]
    rw [if_neg hcond]
    intro hmem
    rw [Set.mem_Ico] at hmem
    have h0 := hmem.1
    rw [show samplePersonR.yaw = 0 from rfl] at h0
    norm_num at h0

/-- Witness for C8: from `yaw = 0`, rotating by 1 radian stays below `2π`
and just adds; rotating by 7 radians exceeds `2π` and takes the wrap
branch. -/
theorem c8_rotate_ccw_witness :
    (samplePersonR.yaw + 1 ≤ Real.pi * 2 ∧
      (rotateCounterclockwise samplePersonR 1).yaw = samplePersonR.yaw + 1) ∧
    (Real.pi * 2 < samplePersonR.yaw + 7 ∧
      (rotateCounterclockwise samplePersonR 7).yaw =
        jsMod (samplePersonR.yaw + 7) Real.pi * 2) := by
  have hyaw : samplePersonR.yaw = 0 := rfl
  have h1 : samplePersonR.yaw + 1 ≤ Real.pi * 2 := by
    rw [hyaw]
    have := Real.pi_gt_d2
    linarith
  have h2 : Real.pi * 2 < samplePersonR.yaw + 7 := by
    rw [hyaw]
    have := Real.pi_lt_d2
    linarith
  exact ⟨⟨h1, (c8_rotate_ccw samplePersonR 1).1 h1⟩,
    ⟨h2, (c8_rotate_ccw samplePersonR 7).2.1 h2⟩⟩

/-- C6 (against the claim): whenever the socket has a nonempty room id, the
`username` handler throws a `TypeError` before reaching any Person —
`rooms[roomID]` is property access on a JS `Map`, which never yields a
stored entry — so no occupant's username is ever overwritten through this
event. -/
theorem c6_username_event_throws {α : Type} [LinearOrderedField α]
    (reg : Registry α) (roomId uid text : String) (h : roomId ≠ "") :
    usernameEvent reg roomId uid text = none := by
  simp [usernameEvent, h, mapIndexAccess]

/-- Witness for C6, which is also the evaluation at the failing input: the
occupant "u" is present in room "A", yet the `username` event produces the
thrown-`TypeError` outcome instead of an updated registry. -/
theorem c6_username_event_throws_witness :
    mapGet ([("A", sampleRoom)] : Registry ℚ) "A" = some sampleRoom ∧
    mapGet sampleRoom.people "u" = some samplePerson ∧
    usernameEvent ([("A", sampleRoom)] : Registry ℚ) "A" "u" "Bob" = none :=
  ⟨by decide, by decide,
    c6_username_event_throws [("A", sampleRoom)] "A" "u" "Bob" (by decide)⟩
